import Mathlib

/-!
Shallow embedding of the JWKS server (`main.go`): RSA key-pair registry,
JWKS discovery endpoint, and JWT issuance endpoint.

Modelling conventions:
* `time.Time` instants and Unix timestamps are modelled as `Int` seconds
  (`time.Hour` is 3600 s, `24 * time.Hour` is 86400 s); `t.Before(u)` is
  strict `t < u`, and `(t.Add(d)).Unix() = t.Unix() + d` for whole-second `d`.
* Go nil pointers (`*KeyPair`) are `Option KeyPair`.
* The RSA key material is abstracted to its public numeric components
  (modulus `N`, exponent `E`) plus an opaque private half; actual
  cryptography is out of scope, matching the spec's black-box treatment.
* The `signFunc` injection point is a function parameter of `authHandler`.
* `big.Int.Bytes()` is `natToBytesBE` (minimal big-endian bytes, empty for 0)
  and `base64.RawURLEncoding.EncodeToString` is `base64RawUrlEncode`
  (unpadded base64url).
* A Go nil slice of `JWK` is distinguished from a non-nil one
  (`Option (List JWK)`): `encoding/json` marshals a nil slice as JSON
  `null`, not as `[]`, which matters for the discovery response shape.
-/

/-- Public half of an RSA key: modulus `N` and exponent `E`
(`crypto/rsa.PublicKey`). -/
structure RSAPublicKey where
  n : Nat
  e : Nat
deriving DecidableEq, Repr

/-- Private half of an RSA key (`crypto/rsa.PrivateKey`); only its embedded
public key is observable in this model, the private material is opaque. -/
structure RSAPrivateKey where
  publicKey : RSAPublicKey
deriving DecidableEq, Repr

/-- One asymmetric signing key (`KeyPair` in `main.go`): identifier,
private and public halves, and expiry instant. -/
structure KeyPair where
  kid : String
  privateKey : RSAPrivateKey
  publicKey : RSAPublicKey
  expiresAt : Int
deriving DecidableEq, Repr

/-- JSON Web Key record (`JWK` in `main.go`): the six string fields serialized
into the discovery document. -/
structure JWK where
  kty : String
  kid : String
  use : String
  alg : String
  n : String
  e : String
deriving DecidableEq, Repr

/-- JSON Web Key Set (`JWKS` in `main.go`). The `keys` slice is kept as
`Option (List JWK)` so that the Go nil slice (marshalled as JSON `null`)
stays distinguishable from a non-nil slice. -/
structure JWKS where
  keys : Option (List JWK)
deriving DecidableEq, Repr

/-- Minimal big-endian byte representation of a natural number, the model of
`math/big.Int.Bytes()`: the empty list for 0, otherwise most significant
byte first with no leading zero byte. -/
def natToBytesBE (v : Nat) : List Nat :=
  if h : v = 0 then []
  else natToBytesBE (v / 256) ++ [v % 256]
termination_by v
decreasing_by exact Nat.div_lt_self (Nat.pos_of_ne_zero h) (by norm_num)

/-- Value denoted by a big-endian byte list (most significant first). -/
def bytesToNatBE (l : List Nat) : Nat :=
  l.foldl (fun acc b => acc * 256 + b) 0

/-- The 64-character base64url alphabet (RFC 4648 section 5), as used by
`encoding/base64.RawURLEncoding`. -/
def b64Alphabet : List Char :=
  "ABCDEFGHIJKLMNOPQRSTUVWXYZabcdefghijklmnopqrstuvwxyz0123456789-_".toList

/-- Character for a 6-bit value in the base64url alphabet. -/
def b64Char (i : Nat) : Char :=
  b64Alphabet.getD i 'A'

/-- Unpadded base64url encoding of a byte list, the model of
`base64.RawURLEncoding.EncodeToString`: 3-byte groups become 4 characters,
a trailing 1- or 2-byte group becomes 2 or 3 characters, and no `=` padding
is emitted. -/
def base64RawUrlEncode : List Nat → List Char
  | [] => []
  | [b1] => [b64Char (b1 / 4), b64Char (b1 % 4 * 16)]
  | [b1, b2] =>
      [b64Char (b1 / 4), b64Char (b1 % 4 * 16 + b2 / 16), b64Char (b2 % 16 * 4)]
  | b1 :: b2 :: b3 :: rest =>
      b64Char (b1 / 4) :: b64Char (b1 % 4 * 16 + b2 / 16) ::
        b64Char (b2 % 16 * 4 + b3 / 64) :: b64Char (b3 % 64) ::
        base64RawUrlEncode rest

/-- Conversion of a key pair to its JWK discovery record
(`KeyPair.toJWK` in `main.go`): fixed `kty`, `use`, `alg`, the key's `kid`,
and base64url-encoded big-endian bytes of the public modulus and exponent. -/
def KeyPair.toJWK (kp : KeyPair) : JWK :=
  { kty := "RSA"
    kid := kp.kid
    use := "sig"
    alg := "RS256"
    n := String.mk (base64RawUrlEncode (natToBytesBE kp.publicKey.n))
    e := String.mk (base64RawUrlEncode (natToBytesBE kp.publicKey.e)) }

/-- Result of `rsa.GenerateKey` together with the identifier drawn from
`uuid.New().String()`: `generateKeyPair` in `main.go`, with the two
effectful inputs (entropy outcome and fresh uuid) passed explicitly. -/
def generateKeyPair (rsaGen : Except String RSAPrivateKey) (freshUuid : String)
    (expiresAt : Int) : Except String KeyPair :=
  match rsaGen with
  | Except.error err => Except.error err
  | Except.ok key => Except.ok ⟨freshUuid, key, key.publicKey, expiresAt⟩

/-- JSON values, enough to express the discovery response body. -/
inductive Json where
  | null : Json
  | str : String → Json
  | arr : List Json → Json
  | obj : List (String × Json) → Json

/-- Whether a JSON value is an array. -/
def Json.isArray : Json → Bool
  | Json.arr _ => true
  | _ => false

/-- JSON encoding of one JWK record (field names fixed by the struct tags
in `main.go`). -/
def JWK.toJson (j : JWK) : Json :=
  Json.obj [("kty", Json.str j.kty), ("kid", Json.str j.kid),
            ("use", Json.str j.use), ("alg", Json.str j.alg),
            ("n", Json.str j.n), ("e", Json.str j.e)]

/-- JSON encoding of the `keys` slice: `encoding/json` marshals a nil slice
as `null` and a non-nil slice as an array. -/
def encodeKeysField : Option (List JWK) → Json
  | none => Json.null
  | some ks => Json.arr (ks.map JWK.toJson)

/-- The `keys` slice built by `jwksHandler` (lines 73-76 of `main.go`):
`var keys []JWK` starts nil, and the valid key's record is appended exactly
when `validKey != nil && time.Now().Before(validKey.ExpiresAt)`. -/
def jwksKeys (validKey : Option KeyPair) (now : Int) : Option (List JWK) :=
  match validKey with
  | some vk => if now < vk.expiresAt then some [vk.toJWK] else none
  | none => none

/-- JSON body written by `jwksHandler` on a GET:
`json.NewEncoder(w).Encode(JWKS\x7bkeys\x7d)`. -/
def jwksBody (validKey : Option KeyPair) (now : Int) : Json :=
  Json.obj [("keys", encodeKeysField (jwksKeys validKey now))]

/-- Response of the JWKS endpoint. -/
inductive JwksResponse where
  | methodNotAllowed : JwksResponse
  | ok : Json → JwksResponse

/-- The JWKS discovery handler (`jwksHandler` in `main.go`): 405 on non-GET,
otherwise a 200 JSON body with the filtered key set. -/
def jwksHandler (validKey : Option KeyPair) (method : String) (now : Int) :
    JwksResponse :=
  if method ≠ "GET" then JwksResponse.methodNotAllowed
  else JwksResponse.ok (jwksBody validKey now)

/-- JWT claim set built by `authHandler`: subject, expiry and issued-at. -/
structure Claims where
  sub : String
  exp : Int
  iat : Int
deriving DecidableEq, Repr

/-- JWT token before signing: header fields `alg` and `typ` set by
`jwt.NewWithClaims`, the `kid` header entry set by `authHandler`, and the
claim set. -/
structure Token where
  alg : String
  typ : String
  kid : Option String
  claims : Claims
deriving DecidableEq, Repr

/-- Key selection of `authHandler` (lines 87-96 of `main.go`): the expired
key with its own expiry as token expiry when the `expired` query parameter
is non-empty and the expired key is set; otherwise the valid key with
`now + 1h`; otherwise no key. -/
def selectSigningKey (validKey expiredKey : Option KeyPair)
    (expiredParam : String) (now : Int) : Option (KeyPair × Int) :=
  if expiredParam ≠ "" ∧ expiredKey.isSome then
    expiredKey.map fun ek => (ek, ek.expiresAt)
  else
    validKey.map fun vk => (vk, now + 3600)

/-- Token constructed by `authHandler` (lines 98-100 of `main.go`):
`jwt.NewWithClaims(jwt.SigningMethodRS256, claims)` sets the `alg` and `typ`
headers, the claim set is fixed `sub`, the selected expiry and `iat = now`,
and the `kid` header is the signing key's identifier. -/
def mkAuthToken (kid : String) (exp iat : Int) : Token :=
  { alg := "RS256", typ := "JWT", kid := some kid
    claims := { sub := "user123", exp := exp, iat := iat } }

/-- The signing key together with the token `authHandler` hands to the sign
capability, when a key is available. -/
def tokenToSign (validKey expiredKey : Option KeyPair) (expiredParam : String)
    (now : Int) : Option (KeyPair × Token) :=
  (selectSigningKey validKey expiredKey expiredParam now).map fun ke =>
    (ke.1, mkAuthToken ke.1.kid ke.2 now)

/-- Response of the auth endpoint. -/
inductive AuthResponse where
  | methodNotAllowed : AuthResponse
  | noKeysAvailable : AuthResponse
  | signingFailed : AuthResponse
  | ok : String → AuthResponse
deriving DecidableEq, Repr

/-- The token issuance handler (`authHandler` in `main.go`): 405 on
non-POST; 500 "No keys available" when no key can be selected; otherwise
the constructed token is passed to the sign capability (`signFunc`), with
500 "Failed to sign token" on its failure and the serialized token on
success. The registry (`validKey`, `expiredKey`) is read, never written. -/
def authHandler (validKey expiredKey : Option KeyPair)
    (method expiredParam : String) (now : Int)
    (sign : RSAPrivateKey → Token → Except String String) : AuthResponse :=
  if method ≠ "POST" then AuthResponse.methodNotAllowed
  else
    match tokenToSign validKey expiredKey expiredParam now with
    | none => AuthResponse.noKeysAvailable
    | some (keyToUse, token) =>
      match sign keyToUse.privateKey token with
      | Except.error _ => AuthResponse.signingFailed
      | Except.ok tokenString => AuthResponse.ok tokenString

/-- Registry initialization (`initKeys` in `main.go`): generate the valid
key with expiry `now + 24h`, returning early on error (the slot then holds
the nil result), then the expired key with expiry `now - 1h`. Returns the
resulting `(validKey, expiredKey)` state and the error, `gen` standing for
the `generateKeyPairFunc` injection point. -/
def initKeys (gen : Int → Except String KeyPair) (now : Int) :
    (Option KeyPair × Option KeyPair) × Option String :=
  match gen (now + 86400) with
  | Except.error err => ((none, none), some err)
  | Except.ok vk =>
    match gen (now - 3600) with
    | Except.error err => ((some vk, none), some err)
    | Except.ok ek => ((some vk, some ek), none)

/-- Key selection in the normal (active-key) scenario, as the spec words
it: the active key with token expiry `now + 1h`, or nothing. -/
def normalSelect (validKey : Option KeyPair) (now : Int) :
    Option (KeyPair × Int) :=
  validKey.map fun vk => (vk, now + 3600)

/-! Helper lemmas on the byte and base64url encodings. -/

/-- Folding the big-endian accumulator from an arbitrary start value. -/
theorem bytesToNatBE_foldl (l : List Nat) : ∀ a : Nat,
    l.foldl (fun acc b => acc * 256 + b) a = a * 256 ^ l.length + bytesToNatBE l := by
  induction l with
  | nil => intro a; simp [bytesToNatBE]
  | cons b t ih =>
    intro a
    have hb : bytesToNatBE (b :: t) = b * 256 ^ t.length + bytesToNatBE t := by
      show (b :: t).foldl (fun acc b => acc * 256 + b) 0 = _
      simp only [List.foldl_cons]
      rw [ih]
      ring_nf
    simp only [List.foldl_cons, List.length_cons]
    rw [ih, hb]
    ring

/-- Value of a big-endian byte list extended by one final byte. -/
theorem bytesToNatBE_append_singleton (l : List Nat) (b : Nat) :
    bytesToNatBE (l ++ [b]) = bytesToNatBE l * 256 + b := by
  unfold bytesToNatBE
  rw [List.foldl_append]
  rfl

/-- The byte representation of a value denotes that value: round trip of
`natToBytesBE` through `bytesToNatBE`. -/
theorem bytesToNatBE_natToBytesBE (v : Nat) : bytesToNatBE (natToBytesBE v) = v := by
  induction v using Nat.strong_induction_on with
  | _ v ih =>
    by_cases h : v = 0
    · rw [h, natToBytesBE]
      simp [bytesToNatBE]
    · rw [natToBytesBE, dif_neg h, bytesToNatBE_append_singleton,
        ih (v / 256) (Nat.div_lt_self (Nat.pos_of_ne_zero h) (by norm_num))]
      omega

/-- The byte representation is empty exactly for the value zero. -/
theorem natToBytesBE_eq_nil (v : Nat) : natToBytesBE v = [] ↔ v = 0 := by
  constructor
  · intro h
    by_contra hv
    rw [natToBytesBE, dif_neg hv] at h
    simp at h
  · intro h
    rw [h, natToBytesBE]
    simp

/-- The byte representation never starts with a zero byte (minimality: no
leading zero byte; the representation of zero is empty). -/
theorem natToBytesBE_head_ne_zero : ∀ v b : Nat,
    (natToBytesBE v).head? = some b → b ≠ 0 := by
  intro v
  induction v using Nat.strong_induction_on with
  | _ v ih =>
    intro b hb
    by_cases h : v = 0
    · rw [h, natToBytesBE] at hb
      simp at hb
    · rw [natToBytesBE, dif_neg h] at hb
      cases hq : natToBytesBE (v / 256) with
      | nil =>
        rw [hq] at hb
        simp at hb
        have hv0 : v / 256 = 0 := (natToBytesBE_eq_nil _).mp hq
        have hvlt : v < 256 := by omega
        rw [← hb]
        omega
      | cons a t =>
        rw [hq] at hb
        simp at hb
        exact hb ▸ ih (v / 256)
          (Nat.div_lt_self (Nat.pos_of_ne_zero h) (by norm_num)) a
          (by rw [hq]; rfl)

/-- Every entry of the byte representation is a byte. -/
theorem natToBytesBE_lt_256 : ∀ v : Nat, ∀ b ∈ natToBytesBE v, b < 256 := by
  intro v
  induction v using Nat.strong_induction_on with
  | _ v ih =>
    intro b hb
    by_cases h : v = 0
    · rw [h, natToBytesBE] at hb
      simp at hb
    · rw [natToBytesBE, dif_neg h] at hb
      rcases List.mem_append.mp hb with h1 | h2
      · exact ih (v / 256) (Nat.div_lt_self (Nat.pos_of_ne_zero h) (by norm_num)) b h1
      · simp at h2
        omega

/-- A byte list of length n denotes a value below 256 ^ n. -/
theorem bytesToNatBE_lt (l : List Nat) (h : ∀ b ∈ l, b < 256) :
    bytesToNatBE l < 256 ^ l.length := by
  induction l with
  | nil => simp [bytesToNatBE]
  | cons b t ih =>
    have hb : bytesToNatBE (b :: t) = b * 256 ^ t.length + bytesToNatBE t := by
      show (b :: t).foldl (fun acc b => acc * 256 + b) 0 = _
      simp only [List.foldl_cons]
      rw [bytesToNatBE_foldl]
      ring_nf
    have h1 : bytesToNatBE t < 256 ^ t.length :=
      ih fun x hx => h x (List.mem_cons_of_mem _ hx)
    have h2 : b + 1 ≤ 256 := h b (List.mem_cons_self b t)
    calc bytesToNatBE (b :: t) = b * 256 ^ t.length + bytesToNatBE t := hb
      _ < b * 256 ^ t.length + 256 ^ t.length := Nat.add_lt_add_left h1 _
      _ = (b + 1) * 256 ^ t.length := by ring
      _ ≤ 256 * 256 ^ t.length := Nat.mul_le_mul_right _ h2
      _ = 256 ^ (b :: t).length := by rw [List.length_cons]; ring

/-- Lower bound forced by the length of the byte representation. -/
theorem pow_length_le_of_natToBytesBE (v : Nat) (h : v ≠ 0) :
    256 ^ ((natToBytesBE v).length - 1) ≤ v := by
  induction v using Nat.strong_induction_on with
  | _ v ih =>
    rw [natToBytesBE, dif_neg h]
    by_cases hq : v / 256 = 0
    · rw [(natToBytesBE_eq_nil _).mpr hq]
      simp
      omega
    · have hlen : 1 ≤ (natToBytesBE (v / 256)).length := by
        rcases hc : natToBytesBE (v / 256) with _ | ⟨a, t⟩
        · exact absurd ((natToBytesBE_eq_nil _).mp hc) hq
        · simp
      have hih : 256 ^ ((natToBytesBE (v / 256)).length - 1) ≤ v / 256 :=
        ih (v / 256) (Nat.div_lt_self (Nat.pos_of_ne_zero h) (by norm_num)) hq
      have hlen2 : (natToBytesBE (v / 256) ++ [v % 256]).length - 1 =
          ((natToBytesBE (v / 256)).length - 1) + 1 := by
        simp
        omega
      rw [hlen2, pow_succ]
      calc 256 ^ ((natToBytesBE (v / 256)).length - 1) * 256 ≤ (v / 256) * 256 :=
            Nat.mul_le_mul_right _ hih
        _ ≤ v := by omega

/-- Minimality of the byte representation: no shorter byte list denotes the
same value. -/
theorem natToBytesBE_minimal (v : Nat) (l : List Nat) (hl : ∀ b ∈ l, b < 256)
    (hv : bytesToNatBE l = v) : (natToBytesBE v).length ≤ l.length := by
  by_cases h : v = 0
  · rw [h, natToBytesBE]
    simp
  · by_contra hlt
    push_neg at hlt
    have h1 : bytesToNatBE l < 256 ^ l.length := bytesToNatBE_lt l hl
    have h2 : (256 : Nat) ^ l.length ≤ 256 ^ ((natToBytesBE v).length - 1) :=
      Nat.pow_le_pow_right (by norm_num) (by omega)
    have h3 := pow_length_le_of_natToBytesBE v h
    omega

/-- Every base64url character produced by `b64Char` lies in the alphabet. -/
theorem b64Char_mem (i : Nat) : b64Char i ∈ b64Alphabet := by
  unfold b64Char List.getD
  cases h : b64Alphabet.get? i with
  | some c =>
    rw [Option.getD_some]
    exact List.get?_mem h
  | none =>
    rw [Option.getD_none]
    decide

/-- No `b64Char` is the padding character. -/
theorem b64Char_ne_pad (i : Nat) : b64Char i ≠ '=' := by
  intro h
  have hmem := b64Char_mem i
  rw [h] at hmem
  revert hmem
  decide

/-- Every character of an unpadded base64url encoding lies in the alphabet. -/
theorem base64RawUrlEncode_mem :
    ∀ l : List Nat, ∀ c ∈ base64RawUrlEncode l, c ∈ b64Alphabet := by
  intro l
  induction l using base64RawUrlEncode.induct with
  | case1 =>
    intro c hc
    simp [base64RawUrlEncode] at hc
  | case2 b1 =>
    intro c hc
    simp [base64RawUrlEncode] at hc
    rcases hc with h | h <;> exact h ▸ b64Char_mem _
  | case3 b1 b2 =>
    intro c hc
    simp [base64RawUrlEncode] at hc
    rcases hc with h | h | h <;> exact h ▸ b64Char_mem _
  | case4 b1 b2 b3 rest ih =>
    intro c hc
    simp only [base64RawUrlEncode, List.mem_cons] at hc
    rcases hc with h | h | h | h | h
    · exact h ▸ b64Char_mem _
    · exact h ▸ b64Char_mem _
    · exact h ▸ b64Char_mem _
    · exact h ▸ b64Char_mem _
    · exact ih c h

/-- The padding character never occurs in an unpadded base64url encoding. -/
theorem base64RawUrlEncode_no_padding (l : List Nat) :
    '=' ∉ base64RawUrlEncode l := by
  intro h
  have hmem := base64RawUrlEncode_mem l '=' h
  revert hmem
  decide

/-! Concrete fixtures used by witnesses and counterexamples. -/

/-- A small concrete RSA public key (modulus 3233, exponent 17). -/
def pub0 : RSAPublicKey := ⟨3233, 17⟩

/-- Private half matching `pub0`. -/
def priv0 : RSAPrivateKey := ⟨pub0⟩

/-- Concrete active key: identifier kid-a, expiry 86400. -/
def kp0 : KeyPair := ⟨"kid-a", priv0, pub0, 86400⟩

/-- Concrete expired key: identifier kid-b, expiry -3600. -/
def kpExp0 : KeyPair := ⟨"kid-b", priv0, pub0, -3600⟩

/-- Deterministic generator for witnesses: fresh pair at the requested
expiry, kid-a for the 24h slot and kid-b otherwise. -/
def genW : Int → Except String KeyPair := fun t =>
  Except.ok ⟨if t = 86400 then "kid-a" else "kid-b", priv0, pub0, t⟩

/-- Sign capability that always succeeds with a fixed serialized token. -/
def sign0 : RSAPrivateKey → Token → Except String String :=
  fun _ _ => Except.ok "tok"

/-- Sign capability that always fails. -/
def signErr : RSAPrivateKey → Token → Except String String :=
  fun _ _ => Except.error "sign failure"

/-- The witness generator honours the requested expiry. -/
theorem genW_expiresAt : ∀ t kp, genW t = Except.ok kp → kp.expiresAt = t := by
  intro t kp h
  unfold genW at h
  injection h with h1
  rw [← h1]

/-- A successful initialization pins both generator calls. -/
theorem initKeys_ok (gen : Int → Except String KeyPair) (now : Int)
    (vk ek : KeyPair) (h : initKeys gen now = ((some vk, some ek), none)) :
    gen (now + 86400) = Except.ok vk ∧ gen (now - 3600) = Except.ok ek := by
  unfold initKeys at h
  cases h1 : gen (now + 86400) with
  | error err => rw [h1] at h; simp at h
  | ok v =>
    rw [h1] at h
    cases h2 : gen (now - 3600) with
    | error err => rw [h2] at h; simp at h
    | ok e2 =>
      rw [h2] at h
      simp only [Prod.mk.injEq, Option.some.injEq] at h
      obtain ⟨⟨hv, he⟩, -⟩ := h
      subst hv
      subst he
      exact ⟨rfl, rfl⟩

/-- Discovery records of keys with different identifiers differ. -/
theorem toJWK_ne_of_kid_ne (a b : KeyPair) (h : a.kid ≠ b.kid) :
    a.toJWK ≠ b.toJWK := by
  intro he
  exact h (congrArg JWK.kid he)

/-- C9: for every key pair, `toJWK` encodes the public modulus and the
public exponent as the minimal big-endian unsigned byte sequence — the
bytes denote exactly the value, carry no leading zero byte (zero gets the
empty sequence), and no byte sequence denoting the same value is shorter —
then base64url-encodes it with no padding character; being a plain
function of the key pair, the transform is pure and deterministic. -/
theorem toJWK_encoding_contract (kp : KeyPair) :
    (bytesToNatBE (natToBytesBE kp.publicKey.n) = kp.publicKey.n ∧
      (∀ b, (natToBytesBE kp.publicKey.n).head? = some b → b ≠ 0) ∧
      (∀ l, (∀ b ∈ l, b < 256) → bytesToNatBE l = kp.publicKey.n →
        (natToBytesBE kp.publicKey.n).length ≤ l.length) ∧
      kp.toJWK.n = String.mk (base64RawUrlEncode (natToBytesBE kp.publicKey.n)) ∧
      '=' ∉ kp.toJWK.n.toList) ∧
    (bytesToNatBE (natToBytesBE kp.publicKey.e) = kp.publicKey.e ∧
      (∀ b, (natToBytesBE kp.publicKey.e).head? = some b → b ≠ 0) ∧
      (∀ l, (∀ b ∈ l, b < 256) → bytesToNatBE l = kp.publicKey.e →
        (natToBytesBE kp.publicKey.e).length ≤ l.length) ∧
      kp.toJWK.e = String.mk (base64RawUrlEncode (natToBytesBE kp.publicKey.e)) ∧
      '=' ∉ kp.toJWK.e.toList) := by
  refine ⟨⟨bytesToNatBE_natToBytesBE _, ?_, ?_, rfl, ?_⟩,
          ⟨bytesToNatBE_natToBytesBE _, ?_, ?_, rfl, ?_⟩⟩
  · exact fun b hb => natToBytesBE_head_ne_zero _ b hb
  · exact fun l hl hv => natToBytesBE_minimal _ l hl hv
  · exact base64RawUrlEncode_no_padding _
  · exact fun b hb => natToBytesBE_head_ne_zero _ b hb
  · exact fun l hl hv => natToBytesBE_minimal _ l hl hv
  · exact base64RawUrlEncode_no_padding _

/-- Witness for C9, evaluated at the concrete key pair `kp0`. -/
theorem toJWK_encoding_contract_witness :
    bytesToNatBE (natToBytesBE (3233 : Nat)) = 3233 ∧
    '=' ∉ kp0.toJWK.n.toList := by
  exact ⟨(toJWK_encoding_contract kp0).1.1, (toJWK_encoding_contract kp0).1.2.2.2.2⟩

/-- C1: after a successful initialization at time t0, the discovery key set
built at any later time now contains the record of a registry key pair iff
that pair's expiry is strictly after now (the expired key's expiry lies
strictly before t0, so its record never qualifies); at t0 itself the set is
exactly the one record of the active key; and the expired key's record is
absent at every time whatsoever. -/
theorem discovery_expiry_filtering (gen : Int → Except String KeyPair)
    (t0 : Int) (vk ek : KeyPair)
    (hgen : ∀ t kp, gen t = Except.ok kp → kp.expiresAt = t)
    (hinit : initKeys gen t0 = ((some vk, some ek), none))
    (hkid : vk.kid ≠ ek.kid) :
    (∀ now : Int, t0 ≤ now →
      ((vk.toJWK ∈ (jwksKeys (some vk) now).getD [] ↔ now < vk.expiresAt) ∧
       (ek.toJWK ∈ (jwksKeys (some vk) now).getD [] ↔ now < ek.expiresAt))) ∧
    (jwksKeys (some vk) t0).getD [] = [vk.toJWK] ∧
    (∀ now : Int, ek.toJWK ∉ (jwksKeys (some vk) now).getD []) := by
  obtain ⟨hgv, hge⟩ := initKeys_ok gen t0 vk ek hinit
  have hv : vk.expiresAt = t0 + 86400 := hgen _ _ hgv
  have he : ek.expiresAt = t0 - 3600 := hgen _ _ hge
  have hne : ek.toJWK ≠ vk.toJWK :=
    toJWK_ne_of_kid_ne ek vk fun hh => hkid hh.symm
  refine ⟨?_, ?_, ?_⟩
  · intro now hnow
    by_cases hlt : now < vk.expiresAt
    · constructor
      · simp [jwksKeys, hlt]
      · simp [jwksKeys, hlt, hne]
        omega
    · constructor
      · simp [jwksKeys, hlt]
      · simp [jwksKeys, hlt]
        omega
  · have hlt : t0 < vk.expiresAt := by omega
    simp [jwksKeys, hlt]
  · intro now
    by_cases hlt : now < vk.expiresAt
    · simp [jwksKeys, hlt, hne]
    · simp [jwksKeys, hlt]

/-- Witness for C1: a concrete successful initialization at time 0;
the discovery set at 0 is exactly the active key's record and the expired
key's record is absent. -/
theorem discovery_expiry_filtering_witness :
    (jwksKeys (some kp0) 0).getD [] = [kp0.toJWK] ∧
    kpExp0.toJWK ∉ (jwksKeys (some kp0) 0).getD [] := by
  have h := discovery_expiry_filtering genW 0 kp0 kpExp0 genW_expiresAt
    (by decide) (by decide)
  exact ⟨h.2.1, h.2.2 0⟩

/-- C2 counterexample: in the forcedExpiredKey scenario (non-empty
`expired` parameter) with the expired key absent but the active key
present, the handler issues a token instead of failing with
NoKeyAvailable, refuting the claim as stated. -/
theorem forced_scenario_fallback_cex :
    authHandler (some kp0) none "POST" "true" 0 sign0 = AuthResponse.ok "tok" ∧
    AuthResponse.ok "tok" ≠ AuthResponse.noKeysAvailable := by
  exact ⟨by decide, by decide⟩

/-- C2 amended: in the forcedExpiredKey scenario the expired key, when
present, is selected with its own expiry as token expiry; when the expired
key is absent the handler falls back to the normal active-key selection,
and it fails with NoKeyAvailable only when the active key is also absent. -/
theorem forced_scenario_selection (vk ek : Option KeyPair) (param : String)
    (now : Int) (hp : param ≠ "") :
    (∀ e, ek = some e →
      selectSigningKey vk ek param now = some (e, e.expiresAt)) ∧
    (ek = none → selectSigningKey vk ek param now = normalSelect vk now) ∧
    (ek = none → vk = none → ∀ sign,
      authHandler vk ek "POST" param now sign = AuthResponse.noKeysAvailable) := by
  refine ⟨?_, ?_, ?_⟩
  · intro e he
    subst he
    simp [selectSigningKey, hp]
  · intro he
    subst he
    simp [selectSigningKey, normalSelect]
  · intro he hv sign
    subst he
    subst hv
    simp [authHandler, tokenToSign, selectSigningKey]

/-- Witness for C2's amended statement: with only the expired key present
and a non-empty parameter value, the expired key is selected. -/
theorem forced_scenario_selection_witness :
    selectSigningKey none (some kpExp0) "x" 0 = some (kpExp0, kpExp0.expiresAt) := by
  exact (forced_scenario_selection none (some kpExp0) "x" 0 (by decide)).1 kpExp0 rfl

/-- C3: on successful issuance the token handed to the sign capability has
expiry claim now + 1 hour in the normal scenario (empty `expired`
parameter) and the expired key's expiresAt in the forcedExpiredKey scenario
(non-empty parameter, expired key present). -/
theorem issuance_expiry_claim (vk ek : Option KeyPair) (now : Int) :
    (∀ v, vk = some v →
      ((tokenToSign vk ek "" now).map fun kt => kt.2.claims.exp) =
        some (now + 3600)) ∧
    (∀ e param, ek = some e → param ≠ "" →
      ((tokenToSign vk ek param now).map fun kt => kt.2.claims.exp) =
        some e.expiresAt) := by
  constructor
  · intro v hv
    subst hv
    simp [tokenToSign, selectSigningKey, mkAuthToken]
  · intro e param he hp
    subst he
    simp [tokenToSign, selectSigningKey, mkAuthToken, hp]

/-- Witness for C3 at concrete keys and time 7, in both scenarios. -/
theorem issuance_expiry_claim_witness :
    ((tokenToSign (some kp0) (some kpExp0) "" 7).map fun kt => kt.2.claims.exp) =
      some (7 + 3600) ∧
    ((tokenToSign (some kp0) (some kpExp0) "x" 7).map fun kt => kt.2.claims.exp) =
      some kpExp0.expiresAt := by
  exact ⟨(issuance_expiry_claim (some kp0) (some kpExp0) 7).1 kp0 rfl,
         (issuance_expiry_claim (some kp0) (some kpExp0) 7).2 kpExp0 "x" rfl
           (by decide)⟩

/-- C4: the token handed to the sign capability always carries the selected
signing key's identifier in its kid header; in the normal scenario that is
the active key's identifier, in the forcedExpiredKey scenario the expired
key's identifier. -/
theorem issuance_kid_header (vk ek : Option KeyPair) (param : String)
    (now : Int) :
    (∀ k tok, tokenToSign vk ek param now = some (k, tok) →
      tok.kid = some k.kid) ∧
    (∀ v, vk = some v → param = "" →
      ((tokenToSign vk ek param now).map fun kt => kt.2.kid) =
        some (some v.kid)) ∧
    (∀ e, ek = some e → param ≠ "" →
      ((tokenToSign vk ek param now).map fun kt => kt.2.kid) =
        some (some e.kid)) := by
  refine ⟨?_, ?_, ?_⟩
  · intro k tok h
    unfold tokenToSign at h
    cases hsel : selectSigningKey vk ek param now with
    | none => rw [hsel] at h; simp at h
    | some ke =>
      rw [hsel] at h
      simp only [Option.map_some', Option.some.injEq, Prod.mk.injEq] at h
      obtain ⟨h1, h2⟩ := h
      rw [← h2, ← h1]
      rfl
  · intro v hv hp
    subst hv
    subst hp
    simp [tokenToSign, selectSigningKey, mkAuthToken]
  · intro e he hp
    subst he
    simp [tokenToSign, selectSigningKey, mkAuthToken, hp]

/-- Witness for C4: the concrete token built for the active key at time 0
carries that key's identifier. -/
theorem issuance_kid_header_witness :
    (mkAuthToken kp0.kid 3600 0).kid = some kp0.kid := by
  exact (issuance_kid_header (some kp0) none "" 0).1 kp0
    (mkAuthToken kp0.kid 3600 0) (by decide)

/-- C5 counterexample: with no publishable key (here: no valid key at all),
the discovery response's keys field is JSON null — the marshalling of Go's
nil slice — not an array, refuting the claim that the field is always an
array (possibly empty). -/
theorem jwks_keys_field_not_array_cex :
    jwksHandler none "GET" 0 = JwksResponse.ok (Json.obj [("keys", Json.null)]) ∧
    Json.isArray Json.null = false := by
  exact ⟨rfl, rfl⟩

/-- C5 amended: the discovery operation always succeeds on GET, returning a
JSON object with a keys field; that field is the one-element array of the
active key's record when the active key is publishable at now, and JSON
null (Go marshals the nil slice as null, never as the empty array)
otherwise. -/
theorem jwks_response_shape (validKey : Option KeyPair) (now : Int) :
    jwksHandler validKey "GET" now =
      JwksResponse.ok (Json.obj [("keys", encodeKeysField (jwksKeys validKey now))]) ∧
    (∀ vk, validKey = some vk → now < vk.expiresAt →
      encodeKeysField (jwksKeys validKey now) = Json.arr [vk.toJWK.toJson]) ∧
    (validKey = none → encodeKeysField (jwksKeys validKey now) = Json.null) ∧
    (∀ vk, validKey = some vk → vk.expiresAt ≤ now →
      encodeKeysField (jwksKeys validKey now) = Json.null) := by
  refine ⟨?_, ?_, ?_, ?_⟩
  · simp [jwksHandler, jwksBody]
  · intro vk hv hlt
    subst hv
    simp [jwksKeys, encodeKeysField, hlt]
  · intro hv
    subst hv
    simp [jwksKeys, encodeKeysField]
  · intro vk hv hle
    subst hv
    simp [jwksKeys, encodeKeysField, show ¬ now < vk.expiresAt from not_lt.mpr hle]

/-- Witness for C5's amended statement: with the concrete active key
publishable at time 0 the keys field is its one-element array. -/
theorem jwks_response_shape_witness :
    encodeKeysField (jwksKeys (some kp0) 0) = Json.arr [kp0.toJWK.toJson] := by
  exact (jwks_response_shape (some kp0) 0).2.1 kp0 rfl (by decide)

/-- C6: provided the generator honours the requested expiry (as
`generateKeyPair` does), a successful initialization at now yields exactly
two key pairs — the active one expiring at now + 24h, strictly in the
future, and the expired one at now - 1h, strictly in the past — and if
either generation call fails, initialization returns an error. -/
theorem initKeys_two_keys (gen : Int → Except String KeyPair) (now : Int)
    (hgen : ∀ t kp, gen t = Except.ok kp → kp.expiresAt = t) :
    (∀ vk ek, initKeys gen now = ((some vk, some ek), none) →
      vk.expiresAt = now + 86400 ∧ ek.expiresAt = now - 3600 ∧
      now < vk.expiresAt ∧ ek.expiresAt < now) ∧
    (∀ st, initKeys gen now = (st, none) → st.1.isSome ∧ st.2.isSome) ∧
    (∀ err, gen (now + 86400) = Except.error err →
      ((initKeys gen now).2).isSome) ∧
    (∀ err, gen (now - 3600) = Except.error err →
      ((initKeys gen now).2).isSome) := by
  refine ⟨?_, ?_, ?_, ?_⟩
  · intro vk ek h
    obtain ⟨h1, h2⟩ := initKeys_ok gen now vk ek h
    have hv := hgen _ _ h1
    have he := hgen _ _ h2
    exact ⟨hv, he, by omega, by omega⟩
  · intro st h
    unfold initKeys at h
    cases h1 : gen (now + 86400) with
    | error err => rw [h1] at h; simp at h
    | ok v =>
      rw [h1] at h
      cases h2 : gen (now - 3600) with
      | error err => rw [h2] at h; simp at h
      | ok e2 =>
        rw [h2] at h
        simp only [Prod.mk.injEq] at h
        rw [← h.1]
        exact ⟨rfl, rfl⟩
  · intro err h
    unfold initKeys
    rw [h]
    rfl
  · intro err h
    unfold initKeys
    cases h1 : gen (now + 86400) with
    | error e2 => rfl
    | ok v =>
      rw [h]
      rfl

/-- Witness for C6: the concrete generator produces the two expected keys
at time 0, and an always-failing generator makes initialization fail. -/
theorem initKeys_two_keys_witness :
    (kp0.expiresAt = 0 + 86400 ∧ kpExp0.expiresAt = 0 - 3600 ∧
      (0 : Int) < kp0.expiresAt ∧ kpExp0.expiresAt < 0) ∧
    ((initKeys (fun _ => Except.error "generation failure") 0).2).isSome = true := by
  constructor
  · exact (initKeys_two_keys genW 0 genW_expiresAt).1 kp0 kpExp0 (by decide)
  · exact (initKeys_two_keys (fun _ => Except.error "generation failure") 0
      (fun t kp h => Except.noConfusion h)).2.2.1 "generation failure" rfl

/-- C7: when both key slots are unset, every issuance request — any
scenario parameter, any time, any sign capability — fails with the no-key
error and yields no token. -/
theorem no_keys_failure (param : String) (now : Int)
    (sign : RSAPrivateKey → Token → Except String String) :
    authHandler none none "POST" param now sign = AuthResponse.noKeysAvailable := by
  simp [authHandler, tokenToSign, selectSigningKey]

/-- C8: when a key is selected and the sign capability fails on every
input, issuance fails with the signing-failure error and yields no token;
the registry being read-only for the handler, the same state with a working
sign capability yields the signed token. -/
theorem signing_failure_isolation (vk ek : Option KeyPair) (param : String)
    (now : Int) (sign sign' : RSAPrivateKey → Token → Except String String)
    (k : KeyPair) (tok : Token) (s : String)
    (hsel : tokenToSign vk ek param now = some (k, tok))
    (hfail : ∀ key t, ∃ err, sign key t = Except.error err)
    (hok : sign' k.privateKey tok = Except.ok s) :
    authHandler vk ek "POST" param now sign = AuthResponse.signingFailed ∧
    authHandler vk ek "POST" param now sign' = AuthResponse.ok s := by
  obtain ⟨err, herr⟩ := hfail k.privateKey tok
  constructor
  · simp [authHandler, hsel, herr]
  · simp [authHandler, hsel, hok]

/-- Witness for C8 at the concrete state with only the active key: the
always-failing capability yields the signing failure, the working one the
token. -/
theorem signing_failure_isolation_witness :
    authHandler (some kp0) none "POST" "" 0 signErr = AuthResponse.signingFailed ∧
    authHandler (some kp0) none "POST" "" 0 sign0 = AuthResponse.ok "tok" := by
  exact signing_failure_isolation (some kp0) none "" 0 signErr sign0 kp0
    (mkAuthToken kp0.kid (0 + 3600) 0) "tok" (by decide)
    (fun key t => ⟨"sign failure", rfl⟩) rfl

/-- C10: any non-empty value of the `expired` query parameter triggers the
forced-expired selection (when the expired key is present), while an empty
or absent parameter always yields the normal active-key selection. -/
theorem expired_param_scenario (vk ek : Option KeyPair) (param : String)
    (now : Int) :
    (param ≠ "" → ∀ e, ek = some e →
      selectSigningKey vk ek param now = some (e, e.expiresAt)) ∧
    (param = "" → selectSigningKey vk ek param now = normalSelect vk now) := by
  constructor
  · intro hp e he
    subst he
    simp [selectSigningKey, hp]
  · intro hp
    subst hp
    simp [selectSigningKey, normalSelect]

/-- Witness for C10: the parameter value yes (not the value true) triggers
the forced selection, and the empty value yields the normal selection. -/
theorem expired_param_scenario_witness :
    selectSigningKey (some kp0) (some kpExp0) "yes" 0 =
      some (kpExp0, kpExp0.expiresAt) ∧
    selectSigningKey (some kp0) (some kpExp0) "" 0 = normalSelect (some kp0) 0 := by
  exact ⟨(expired_param_scenario (some kp0) (some kpExp0) "yes" 0).1
           (by decide) kpExp0 rfl,
         (expired_param_scenario (some kp0) (some kpExp0) "" 0).2 rfl⟩
